import Mathlib

/-
Verification development for the pigeon FFI layer (src/lib.rs and
src/lua/runtime.rs).

The Rust code is shallowly embedded as executable Lean definitions:
  * the serde-derived wire structs `FfiRequest`, `FfiHeader`, `FfiBody`,
    `FfiResponse` become Lean structures;
  * `pigeon_send_request` becomes a pure function of the (possibly null)
    input bytes and of the transport outcome, returning the `FfiResponse`
    whose serialization the real function hands back through the C
    boundary;
  * `pigeon_load_config` / `pigeon_reload_config` become explicit
    state-passing functions over the `OnceLock<LuaRuntime>` global and an
    environment record describing the outcomes of the filesystem / mlua
    library calls they make;
  * the library routines the code calls (UTF-8 decoding of the C string,
    JSON parsing by serde_json, HTTP method parsing by
    `reqwest::Method::from_str`) are implemented faithfully to their
    documented behaviour so claims can be evaluated on concrete inputs.
-/

set_option autoImplicit false

namespace Pigeon

/-! ## Wire data model (serde structs from src/lib.rs) -/

/-- Embeds `FfiHeader` (lib.rs lines 35-42): `key`, `value`, `enabled`
(with `enabled` defaulting to `true` during deserialization). -/
structure FfiHeader where
  key : String
  value : String
  enabled : Bool
deriving Repr, DecidableEq

/-- Embeds `FfiBody` (lib.rs lines 48-55): `contentType`, `content`, both
defaulting to the empty string during deserialization. -/
structure FfiBody where
  contentType : String
  content : String
deriving Repr, DecidableEq

/-- Embeds `FfiRequest` (lib.rs lines 25-33): `method`, `url`, `headers`
(defaulting to the empty list), and an optional `body`. -/
structure FfiRequest where
  method : String
  url : String
  headers : List FfiHeader
  body : Option FfiBody
deriving Repr, DecidableEq

/-- Embeds `FfiResponse` (lib.rs lines 57-65).  `status` is a `u16` in the
source; it is modelled as `Nat` (every value the code ever stores in it is
either `0` or an HTTP status code in `100..=999`). -/
structure FfiResponse where
  status : Nat
  statusText : String
  headers : List (String × String)
  body : String
  durationMs : Nat
deriving Repr, DecidableEq

/-- Embeds `json_error` (lib.rs lines 67-76) at the `FfiResponse` level:
the uniform error payload with `status = 0`, `statusText = "Error"`, no
headers, the message as body, and `duration_ms = 0`.  (The
`serde_json::to_string` fallback branch of the source cannot fire for this
struct, so the function is modelled as the response it serializes.) -/
def json_error (message : String) : FfiResponse :=
  { status := 0
    statusText := "Error"
    headers := []
    body := message
    durationMs := 0 }

/-! ## HTTP method parsing

`parsed.method.parse::<reqwest::Method>()` (lib.rs lines 113-116) goes
through `http::Method::from_bytes`: the standard uppercase names are
recognised directly and any other non-empty string of RFC 7230 token
characters is accepted as an extension method (whose textual form is the
input itself); the empty string or any string containing a non-token
byte is rejected. -/

/-- Token characters accepted by `http::Method` for method names:
digits, ASCII letters, and `!#$%&'*+-.^_`|~` (given by code point). -/
def isMethodChar (c : Char) : Bool :=
  decide ((0x30 ≤ c.toNat ∧ c.toNat ≤ 0x39) ∨
    (0x41 ≤ c.toNat ∧ c.toNat ≤ 0x5A) ∨
    (0x61 ≤ c.toNat ∧ c.toNat ≤ 0x7A) ∨
    c.toNat = 0x21 ∨ c.toNat = 0x23 ∨ c.toNat = 0x24 ∨ c.toNat = 0x25 ∨
    c.toNat = 0x26 ∨ c.toNat = 0x27 ∨ c.toNat = 0x2A ∨ c.toNat = 0x2B ∨
    c.toNat = 0x2D ∨ c.toNat = 0x2E ∨ c.toNat = 0x5E ∨ c.toNat = 0x5F ∨
    c.toNat = 0x60 ∨ c.toNat = 0x7C ∨ c.toNat = 0x7E)

/-- Models `reqwest::Method::from_str` (= `http::Method::from_bytes`):
succeeds exactly on non-empty strings of method token characters, and the
resulting method renders as the input string itself. -/
def parseMethod (s : String) : Option String :=
  if s.data ≠ [] ∧ s.data.all isMethodChar = true then some s else none

/-! ## Building the outgoing request (lib.rs lines 113-134) -/

/-- State of the `reqwest::RequestBuilder` as far as the pigeon code
manipulates it: the transport verb, the target URL, the header pairs
appended so far (in order), and the optional payload. -/
structure BuiltRequest where
  method : String
  url : String
  headers : List (String × String)
  payload : Option String
deriving Repr, DecidableEq

/-- Embeds the header loop of lib.rs lines 121-125: each header with
`enabled == true` is appended verbatim, disabled headers are skipped. -/
def buildHeaders : List FfiHeader → List (String × String)
  | [] => []
  | h :: t =>
    if h.enabled then (h.key, h.value) :: buildHeaders t else buildHeaders t

/-- Unicode `White_Space` property, as used by Rust's `char::is_whitespace`
(the exact set of the 25 `White_Space` code points). -/
def rustIsWhitespace (c : Char) : Bool :=
  decide ((0x09 ≤ c.toNat ∧ c.toNat ≤ 0x0D) ∨ c.toNat = 0x20 ∨ c.toNat = 0x85 ∨
    c.toNat = 0xA0 ∨ c.toNat = 0x1680 ∨ (0x2000 ≤ c.toNat ∧ c.toNat ≤ 0x200A) ∨
    c.toNat = 0x2028 ∨ c.toNat = 0x2029 ∨ c.toNat = 0x202F ∨ c.toNat = 0x205F ∨
    c.toNat = 0x3000)

/-- Models Rust's `str::trim`: drops `White_Space` characters from both
ends. -/
def strTrim (s : String) : String :=
  ⟨(((s.data.dropWhile rustIsWhitespace).reverse.dropWhile rustIsWhitespace).reverse)⟩

/-- Embeds the body block of lib.rs lines 127-134: with a `Some` body, a
non-empty trimmed `contentType` appends a `Content-Type` header carrying
the (untrimmed) `contentType`, and a non-empty `content` becomes the
payload. -/
def applyBody (b : Option FfiBody) (r : BuiltRequest) : BuiltRequest :=
  match b with
  | none => r
  | some body =>
    let r1 :=
      if strTrim body.contentType = "" then r
      else { r with headers := r.headers ++ [("Content-Type", body.contentType)] }
    if body.content = "" then r1 else { r1 with payload := some body.content }

/-- Embeds lib.rs lines 113-134 as a whole: the request handed to the
transport, built from a parsed `FfiRequest`.  An unparsable `method`
falls back to `"GET"` via `unwrap_or(reqwest::Method::GET)`. -/
def buildRequest (r : FfiRequest) : BuiltRequest :=
  applyBody r.body
    { method := (parseMethod r.method).getD "GET"
      url := r.url
      headers := buildHeaders r.headers
      payload := none }

/-! ## Dispatch outcome (lib.rs lines 136-159) -/

/-- Outcome of `req.send().await` together with the data the code then
reads off it.  On success the fields model `resp.status().as_u16()`,
`resp.status().to_string()`, the header-map iteration with lossy value
decoding, `resp.text().await.unwrap_or_default()`, and the elapsed
milliseconds measured by the surrounding `Instant` pair; on failure the
string models the error's `Display` text and the `Nat` the elapsed
milliseconds that the code measures but (as proved below) discards. -/
inductive NetOutcome where
  | success (status : Nat) (statusText : String)
      (headers : List (String × String)) (body : String) (elapsedMs : Nat)
  | failure (errMsg : String) (elapsedMs : Nat)
deriving Repr, DecidableEq

/-- Embeds the `match req.send().await` block (lib.rs lines 137-159): a
successful response is repackaged field by field with the measured
duration, a transport error goes through `json_error` with the message
`request failed: {e}` (and thus `duration_ms = 0`). -/
def dispatchResult (net : NetOutcome) : FfiResponse :=
  match net with
  | .success st stText hdrs body elapsed =>
    { status := st
      statusText := stText
      headers := hdrs
      body := body
      durationMs := elapsed }
  | .failure e _elapsed => json_error ("request failed: " ++ e)

/-! ## UTF-8 decoding

`CStr::to_str` (lib.rs lines 100-104) validates the input bytes as UTF-8
via `core::str::from_utf8`.  The decoder below implements that validation
(rejecting overlong forms, surrogates, and code points above `0x10FFFF`)
and renders errors exactly as `Utf8Error`'s `Display` implementation
does, since the code embeds that rendering in its diagnostic
(`format!("invalid utf-8: {e}")`). -/

/-- Continuation byte test: `0x80..=0xBF`. -/
def contByte (n : Nat) : Bool := decide (0x80 ≤ n ∧ n ≤ 0xBF)

/-- Decoding loop over the byte list.  `i` is the index of the current
byte in the original input.  Errors carry `(valid_up_to, error_len)` in
the sense of `core::str::Utf8Error`: `error_len = none` means the input
ended inside a sequence that a longer input could have completed.  The
fuel argument only serves termination; `utf8Decode` supplies enough of
it that the zero case is never reached. -/
def utf8DecodeLoop : Nat → List Nat → Nat → Except (Nat × Option Nat) (List Char)
  | 0, _, i => .error (i, none)
  | _fuel + 1, [], _ => .ok []
  | fuel + 1, b :: rest, i =>
    if b ≤ 0x7F then
      (utf8DecodeLoop fuel rest (i + 1)).map (fun cs => Char.ofNat b :: cs)
    else if 0xC2 ≤ b ∧ b ≤ 0xDF then
      match rest with
      | [] => .error (i, none)
      | b1 :: r1 =>
        if contByte b1 then
          (utf8DecodeLoop fuel r1 (i + 2)).map
            (fun cs => Char.ofNat ((b - 0xC0) * 0x40 + (b1 - 0x80)) :: cs)
        else .error (i, some 1)
    else if 0xE0 ≤ b ∧ b ≤ 0xEF then
      let lo2 := if b = 0xE0 then 0xA0 else 0x80
      let hi2 := if b = 0xED then 0x9F else 0xBF
      match rest with
      | [] => .error (i, none)
      | b1 :: r1 =>
        if lo2 ≤ b1 ∧ b1 ≤ hi2 then
          match r1 with
          | [] => .error (i, none)
          | b2 :: r2 =>
            if contByte b2 then
              (utf8DecodeLoop fuel r2 (i + 3)).map
                (fun cs =>
                  Char.ofNat ((b - 0xE0) * 0x1000 + (b1 - 0x80) * 0x40 + (b2 - 0x80)) :: cs)
            else .error (i, some 2)
        else .error (i, some 1)
    else if 0xF0 ≤ b ∧ b ≤ 0xF4 then
      let lo2 := if b = 0xF0 then 0x90 else 0x80
      let hi2 := if b = 0xF4 then 0x8F else 0xBF
      match rest with
      | [] => .error (i, none)
      | b1 :: r1 =>
        if lo2 ≤ b1 ∧ b1 ≤ hi2 then
          match r1 with
          | [] => .error (i, none)
          | b2 :: r2 =>
            if contByte b2 then
              match r2 with
              | [] => .error (i, none)
              | b3 :: r3 =>
                if contByte b3 then
                  (utf8DecodeLoop fuel r3 (i + 4)).map
                    (fun cs =>
                      Char.ofNat ((b - 0xF0) * 0x40000 + (b1 - 0x80) * 0x1000 +
                        (b2 - 0x80) * 0x40 + (b3 - 0x80)) :: cs)
                else .error (i, some 3)
            else .error (i, some 2)
        else .error (i, some 1)
    else .error (i, some 1)

/-- Renders a decoding error the way `core::str::Utf8Error` displays. -/
def utf8ErrorMsg : Nat × Option Nat → String
  | (i, some n) =>
    "invalid utf-8 sequence of " ++ toString n ++ " bytes from index " ++ toString i
  | (i, none) => "incomplete utf-8 byte sequence from index " ++ toString i

/-- Models `CStr::to_str` on the byte content of the C string (the bytes
before the terminating NUL): either the decoded string or the rendered
`Utf8Error`. -/
def utf8Decode (bs : List Nat) : Except String String :=
  match utf8DecodeLoop (bs.length + 1) bs 0 with
  | .ok cs => .ok ⟨cs⟩
  | .error e => .error (utf8ErrorMsg e)

/-- UTF-8 encoding of one code point, used to turn concrete Lean string
literals into the byte lists a foreign caller would pass in. -/
def utf8EncodeChar (n : Nat) : List Nat :=
  if n ≤ 0x7F then [n]
  else if n ≤ 0x7FF then [0xC0 + n / 0x40, 0x80 + n % 0x40]
  else if n ≤ 0xFFFF then
    [0xE0 + n / 0x1000, 0x80 + n / 0x40 % 0x40, 0x80 + n % 0x40]
  else
    [0xF0 + n / 0x40000, 0x80 + n / 0x1000 % 0x40, 0x80 + n / 0x40 % 0x40,
      0x80 + n % 0x40]

/-- Byte content of a string, UTF-8 encoded. -/
def strBytes (s : String) : List Nat :=
  (s.data.map (fun c => utf8EncodeChar c.toNat)).flatten

/-! ## JSON syntax

`serde_json::from_str` (lib.rs line 106) first of all requires the input
to be RFC 8259 JSON.  The grammar is embedded below as an executable
recursive-descent reader over the character list; object members are kept
as an ordered association list with duplicates preserved, numbers are
kept as their raw token (no claim inspects numeric values).  The same
reader doubles as the validity check used against the hand-formatted
payloads of the config entry points. -/

/-- JSON values. -/
inductive Json where
  | null
  | bool (b : Bool)
  | num (raw : String)
  | str (s : String)
  | arr (elems : List Json)
  | obj (fields : List (String × Json))
deriving Repr

/-- Opening brace character, by code point. -/
def lbrace : Char := Char.ofNat 0x7B

/-- Closing brace character, by code point. -/
def rbrace : Char := Char.ofNat 0x7D

/-- JSON insignificant whitespace. -/
def isJsonWs (c : Char) : Bool :=
  c = ' ' ∨ c = '\t' ∨ c = '\n' ∨ c = '\x0d'

/-- Drops leading JSON whitespace. -/
def skipWs : List Char → List Char
  | [] => []
  | c :: cs => if isJsonWs c then skipWs cs else c :: cs

/-- Value of one hexadecimal digit. -/
def hexDigit (c : Char) : Option Nat :=
  if '0' ≤ c ∧ c ≤ '9' then some (c.toNat - 0x30)
  else if 'a' ≤ c ∧ c ≤ 'f' then some (c.toNat - 0x61 + 10)
  else if 'A' ≤ c ∧ c ≤ 'F' then some (c.toNat - 0x41 + 10)
  else none

/-- Reads four hexadecimal digits. -/
def parseHex4 : List Char → Option (Nat × List Char)
  | c1 :: c2 :: c3 :: c4 :: rest =>
    match hexDigit c1, hexDigit c2, hexDigit c3, hexDigit c4 with
    | some a, some b, some c, some d =>
      some (((a * 16 + b) * 16 + c) * 16 + d, rest)
    | _, _, _, _ => none
  | _ => none

/-- Reads the remainder of a JSON string literal (the opening quote
already consumed) into its decoded characters, handling the standard
escapes including surrogate pairs, and rejecting unescaped control
characters and lone surrogates, as serde_json does. -/
def parseStrLoop : Nat → List Char → List Char → Except String (String × List Char)
  | 0, _, _ => .error "recursion limit exceeded"
  | fuel + 1, cs, acc =>
    match cs with
    | [] => .error "unexpected end of string"
    | c :: rest =>
      if c = '"' then .ok (⟨acc.reverse⟩, rest)
      else if c = '\\' then
        match rest with
        | [] => .error "unexpected end of string"
        | e :: r2 =>
          if e = '"' then parseStrLoop fuel r2 ('"' :: acc)
          else if e = '\\' then parseStrLoop fuel r2 ('\\' :: acc)
          else if e = '/' then parseStrLoop fuel r2 ('/' :: acc)
          else if e = 'b' then parseStrLoop fuel r2 (Char.ofNat 0x08 :: acc)
          else if e = 'f' then parseStrLoop fuel r2 (Char.ofNat 0x0C :: acc)
          else if e = 'n' then parseStrLoop fuel r2 ('\n' :: acc)
          else if e = 'r' then parseStrLoop fuel r2 ('\x0d' :: acc)
          else if e = 't' then parseStrLoop fuel r2 ('\t' :: acc)
          else if e = 'u' then
            match parseHex4 r2 with
            | none => .error "invalid hex escape"
            | some (n, r3) =>
              if 0xD800 ≤ n ∧ n ≤ 0xDBFF then
                match r3 with
                | '\\' :: 'u' :: r4 =>
                  match parseHex4 r4 with
                  | none => .error "invalid hex escape"
                  | some (m, r5) =>
                    if 0xDC00 ≤ m ∧ m ≤ 0xDFFF then
                      parseStrLoop fuel r5
                        (Char.ofNat (0x10000 + (n - 0xD800) * 0x400 + (m - 0xDC00)) :: acc)
                    else .error "lone leading surrogate in hex escape"
                | _ => .error "unexpected end of hex escape"
              else if 0xDC00 ≤ n ∧ n ≤ 0xDFFF then
                .error "lone trailing surrogate in hex escape"
              else parseStrLoop fuel r3 (Char.ofNat n :: acc)
          else .error "invalid escape"
      else if c.toNat < 0x20 then .error "control character in string"
      else parseStrLoop fuel rest (c :: acc)

/-- Takes the maximal run of leading decimal digits. -/
def takeDigits : List Char → List Char × List Char
  | [] => ([], [])
  | c :: rest =>
    if c.isDigit then
      let (ds, r) := takeDigits rest
      (c :: ds, r)
    else ([], c :: rest)

/-- Reads the optional fraction and exponent of a number token whose
integer part `acc` has been consumed. -/
def parseNumTail (acc : List Char) (cs : List Char) : Except String (String × List Char) :=
  let fr : Except String (List Char × List Char) :=
    match cs with
    | '.' :: r =>
      let (ds, r2) := takeDigits r
      if ds.isEmpty then .error "expected digit after decimal point"
      else .ok (acc ++ '.' :: ds, r2)
    | _ => .ok (acc, cs)
  match fr with
  | .error e => .error e
  | .ok (acc2, cs2) =>
    match cs2 with
    | c :: r =>
      if c = 'e' ∨ c = 'E' then
        let sr : List Char × List Char :=
          match r with
          | s :: r3 => if s = '+' ∨ s = '-' then ([s], r3) else ([], s :: r3)
          | [] => ([], [])
        let (ds, r4) := takeDigits sr.2
        if ds.isEmpty then .error "expected digit in exponent"
        else .ok (⟨acc2 ++ c :: (sr.1 ++ ds)⟩, r4)
      else .ok (⟨acc2⟩, c :: r)
    | [] => .ok (⟨acc2⟩, [])

/-- Reads a JSON number token (`-?(0|[1-9][0-9]*)(.digits)?([eE][+-]?digits)?`),
returning its raw text. -/
def parseNumber (cs : List Char) : Except String (String × List Char) :=
  let sn : List Char × List Char :=
    match cs with
    | '-' :: r => (['-'], r)
    | _ => ([], cs)
  match sn.2 with
  | [] => .error "expected digit"
  | c :: rest =>
    if c = '0' then parseNumTail (sn.1 ++ [c]) rest
    else if c.isDigit then
      let (ds, r2) := takeDigits rest
      parseNumTail (sn.1 ++ c :: ds) r2
    else .error "expected digit"

mutual

/-- Reads one JSON value (leading whitespace allowed). -/
def parseValue : Nat → List Char → Except String (Json × List Char)
  | 0, _ => .error "recursion limit exceeded"
  | fuel + 1, cs =>
    match skipWs cs with
    | [] => .error "unexpected end of input"
    | c :: rest =>
      if c = 'n' then
        match rest with
        | 'u' :: 'l' :: 'l' :: r => .ok (.null, r)
        | _ => .error "expected ident"
      else if c = 't' then
        match rest with
        | 'r' :: 'u' :: 'e' :: r => .ok (.bool true, r)
        | _ => .error "expected ident"
      else if c = 'f' then
        match rest with
        | 'a' :: 'l' :: 's' :: 'e' :: r => .ok (.bool false, r)
        | _ => .error "expected ident"
      else if c = '"' then
        (parseStrLoop (rest.length + 1) rest []).map (fun p => (.str p.1, p.2))
      else if c = '[' then
        match skipWs rest with
        | ']' :: r => .ok (.arr [], r)
        | cs1 => (parseArrElems fuel cs1).map (fun p => (.arr p.1, p.2))
      else if c = lbrace then
        match skipWs rest with
        | c1 :: r =>
          if c1 = rbrace then .ok (.obj [], r)
          else (parseObjElems fuel (c1 :: r)).map (fun p => (.obj p.1, p.2))
        | [] => .error "unexpected end of object"
      else if c = '-' ∨ c.isDigit then
        (parseNumber (c :: rest)).map (fun p => (.num p.1, p.2))
      else .error "unexpected character"

/-- Reads the comma-separated elements of a non-empty array, up to and
including the closing bracket. -/
def parseArrElems : Nat → List Char → Except String (List Json × List Char)
  | 0, _ => .error "recursion limit exceeded"
  | fuel + 1, cs =>
    match parseValue fuel cs with
    | .error e => .error e
    | .ok (v, cs1) =>
      match skipWs cs1 with
      | ',' :: r => (parseArrElems fuel (skipWs r)).map (fun p => (v :: p.1, p.2))
      | ']' :: r => .ok ([v], r)
      | _ => .error "expected comma or bracket"

/-- Reads the comma-separated members of a non-empty object, up to and
including the closing brace. -/
def parseObjElems : Nat → List Char → Except String (List (String × Json) × List Char)
  | 0, _ => .error "recursion limit exceeded"
  | fuel + 1, cs =>
    match skipWs cs with
    | '"' :: r =>
      match parseStrLoop (r.length + 1) r [] with
      | .error e => .error e
      | .ok (k, r1) =>
        match skipWs r1 with
        | ':' :: r2 =>
          match parseValue fuel r2 with
          | .error e => .error e
          | .ok (v, r3) =>
            match skipWs r3 with
            | ',' :: r4 =>
              (parseObjElems fuel r4).map (fun p => ((k, v) :: p.1, p.2))
            | c :: r4 =>
              if c = rbrace then .ok ([(k, v)], r4)
              else .error "expected comma or brace"
            | [] => .error "unexpected end of object"
        | _ => .error "expected colon"
    | _ => .error "expected string key"

end

/-- Parses a whole input string as a single JSON document (trailing
whitespace allowed, anything else after the value rejected). -/
def jsonParse (s : String) : Except String Json :=
  match parseValue (s.length * 2 + 8) s.data with
  | .error e => .error e
  | .ok (v, rest) =>
    match skipWs rest with
    | [] => .ok v
    | _ => .error "trailing characters"

/-- Syntactic JSON validity of a string. -/
def isValidJson (s : String) : Bool :=
  match jsonParse s with
  | .ok _ => true
  | .error _ => false

/-! ## Deserializing `FfiRequest`

Field extraction as performed by the serde derive on the structs of
lib.rs: required fields error when missing or duplicated, `#[serde(default)]`
fields fall back to their default when absent, `Option` fields treat both
absence and `null` as `None`, unknown fields are ignored (the derives do
not opt into `deny_unknown_fields`).  The diagnostic messages below name
the same conditions serde reports; their exact wording is the model's. -/

/-- Members of an object whose key equals `k` (in order). -/
def keyOccurrences (flds : List (String × Json)) (k : String) : List (String × Json) :=
  flds.filter (fun kv => kv.1 == k)

/-- Extracts a required string field. -/
def reqStringField (flds : List (String × Json)) (k : String) : Except String String :=
  match keyOccurrences flds k with
  | [] => .error ("missing field " ++ k)
  | [(_, Json.str s)] => .ok s
  | [(_, _)] => .error ("invalid type for field " ++ k)
  | _ => .error ("duplicate field " ++ k)

/-- Extracts an optional string field with the `String::default` fallback
(`#[serde(default)]` on the `FfiBody` fields). -/
def optStringField (flds : List (String × Json)) (k : String) : Except String String :=
  match keyOccurrences flds k with
  | [] => .ok ""
  | [(_, Json.str s)] => .ok s
  | [(_, _)] => .error ("invalid type for field " ++ k)
  | _ => .error ("duplicate field " ++ k)

/-- Extracts an optional boolean field with a `true` fallback
(`#[serde(default = "default_true")]` on `FfiHeader.enabled`). -/
def optBoolFieldTrue (flds : List (String × Json)) (k : String) : Except String Bool :=
  match keyOccurrences flds k with
  | [] => .ok true
  | [(_, Json.bool b)] => .ok b
  | [(_, _)] => .error ("invalid type for field " ++ k)
  | _ => .error ("duplicate field " ++ k)

/-- Deserializes one `FfiHeader` value. -/
def parseHeaderVal : Json → Except String FfiHeader
  | Json.obj flds =>
    match reqStringField flds "key" with
    | .error e => .error e
    | .ok k =>
      match reqStringField flds "value" with
      | .error e => .error e
      | .ok v =>
        match optBoolFieldTrue flds "enabled" with
        | .error e => .error e
        | .ok en => .ok ⟨k, v, en⟩
  | _ => .error "invalid type: expected header object"

/-- Deserializes a list of `FfiHeader` values, failing at the first bad
element. -/
def parseHeaderList : List Json → Except String (List FfiHeader)
  | [] => .ok []
  | j :: js =>
    match parseHeaderVal j with
    | .error e => .error e
    | .ok h =>
      match parseHeaderList js with
      | .error e => .error e
      | .ok hs => .ok (h :: hs)

/-- Extracts the `headers` field (`#[serde(default)] Vec<FfiHeader>`):
absent means `[]`, present must be an array of header objects. -/
def parseHeadersField (flds : List (String × Json)) : Except String (List FfiHeader) :=
  match keyOccurrences flds "headers" with
  | [] => .ok []
  | [(_, Json.arr js)] => parseHeaderList js
  | [(_, _)] => .error "invalid type for field headers"
  | _ => .error "duplicate field headers"

/-- Deserializes one `FfiBody` value. -/
def parseBodyVal : Json → Except String FfiBody
  | Json.obj flds =>
    match optStringField flds "contentType" with
    | .error e => .error e
    | .ok ct =>
      match optStringField flds "content" with
      | .error e => .error e
      | .ok c => .ok ⟨ct, c⟩
  | _ => .error "invalid type: expected body object"

/-- Extracts the `body` field (`Option<FfiBody>`): absent or `null` means
`none`, otherwise a body object. -/
def parseBodyField (flds : List (String × Json)) : Except String (Option FfiBody) :=
  match keyOccurrences flds "body" with
  | [] => .ok none
  | [(_, Json.null)] => .ok none
  | [(_, j)] => (parseBodyVal j).map some
  | _ => .error "duplicate field body"

/-- Deserializes an `FfiRequest` from a JSON value. -/
def parseFfiRequestVal : Json → Except String FfiRequest
  | Json.obj flds =>
    match reqStringField flds "method" with
    | .error e => .error e
    | .ok m =>
      match reqStringField flds "url" with
      | .error e => .error e
      | .ok u =>
        match parseHeadersField flds with
        | .error e => .error e
        | .ok hs =>
          match parseBodyField flds with
          | .error e => .error e
          | .ok b => .ok ⟨m, u, hs, b⟩
  | _ => .error "invalid type: expected request object"

/-- Models `serde_json::from_str::<FfiRequest>` (lib.rs line 106). -/
def parseFfiRequest (s : String) : Except String FfiRequest :=
  match jsonParse s with
  | .error e => .error e
  | .ok j => parseFfiRequestVal j

/-! ## The send_request pipeline (lib.rs lines 94-169)

The model maps the raw C input (`none` for a null pointer, otherwise the
bytes before the terminating NUL) and the transport outcome to the
`FfiResponse` whose serialization the real function returns.  The
`catch_unwind` wrapper (lines 95 and 165-168) is panic machinery with no
counterpart in this total model; every branch below is one of the
in-language paths it wraps. -/

/-- Embeds the body of `pigeon_send_request`: null check, UTF-8
decoding, JSON parsing, then dispatch.  The transport outcome `net` is
only consulted when the input survives all three validation steps. -/
def pigeon_send_request (input : Option (List Nat)) (net : NetOutcome) : FfiResponse :=
  match input with
  | none => json_error "req_json is null"
  | some bs =>
    match utf8Decode bs with
    | .error e => json_error ("invalid utf-8: " ++ e)
    | .ok s =>
      match parseFfiRequest s with
      | .error e => json_error ("invalid json: " ++ e)
      | .ok _req => dispatchResult net

/-- Whether a real HTTP response was obtained for the given input and
transport outcome: the input must pass the null, UTF-8 and JSON gates and
the transport must have produced a response. -/
def obtainedHttpResponse (input : Option (List Nat)) (net : NetOutcome) : Bool :=
  match input with
  | none => false
  | some bs =>
    match utf8Decode bs with
    | .error _ => false
    | .ok s =>
      match parseFfiRequest s with
      | .error _ => false
      | .ok _ =>
        match net with
        | .success _ _ _ _ _ => true
        | .failure _ _ => false

/-! ## Config entry points (lib.rs lines 193-311, src/lua/runtime.rs)

`pigeon_load_config` and `pigeon_reload_config` interact with the
filesystem, the `dirs` crate, and the mlua interpreter.  Those external
effects are captured in a `ConfigEnv` record describing the outcome of
each call the code makes during one invocation; the `OnceLock<LuaRuntime>`
global becomes explicit state threaded through the functions.  The
interpreter's accumulated state is abstracted as the ordered list of
scripts that `LuaRuntime::load_file` has successfully executed in it. -/

/-- Embeds `LuaRuntime` (runtime.rs lines 9-12): the configuration
directory path it was constructed with, and the interpreter state
abstracted as the scripts executed so far (`Lua::new_with` plus `setup`
yield an interpreter with no script executed, i.e. `[]`). -/
structure LuaRuntime where
  config_path : String
  scripts : List String
deriving Repr, DecidableEq

/-- Embeds the `LUA_RUNTIME: OnceLock<LuaRuntime>` global (lib.rs line
14): empty or holding the stored runtime. -/
structure GlobalState where
  luaRuntime : Option LuaRuntime
deriving Repr, DecidableEq

/-- Outcomes of the external calls one config entry-point invocation
makes: config-directory resolution (the `dirs`/`create_dir_all` block,
lib.rs lines 197-223), `LuaRuntime::new` (which can fail inside mlua or
`setup`), the `config_file.exists()` probe, and reading plus executing
`config.lua` (`LuaRuntime::load_file`, whose error `Display` is the
outermost anyhow context).  `scriptSource` identifies the script content
executed on success. -/
structure ConfigEnv where
  configDirResult : Except String String
  luaNewResult : Except String Unit
  configFileExists : Bool
  scriptSource : String
  execResult : Except String Unit
deriving Repr

/-- Payload `{"success": true}` returned by both config entry points
(braces written by code point). -/
def successPayload : String := "\x7b\"success\": true\x7d"

/-- Error payload construction shared by all failure branches of the
config entry points: the message is spliced verbatim between the fixed
JSON-looking delimiters, exactly as the `format!(r#"{{"error": "{}"}}"#, e)`
calls in lib.rs do — with no escaping of the message. -/
def errorPayload (msg : String) : String :=
  "\x7b\"error\": \"" ++ msg ++ "\"\x7d"

/-- Embeds `pigeon_load_config` (lib.rs lines 193-265): resolve the
config directory, construct a fresh `LuaRuntime`, execute `config.lua` in
it when the file exists, then `LUA_RUNTIME.set(runtime).ok()` — which
stores the runtime only when the slot is still empty and silently drops
it otherwise — and report success. -/
def pigeon_load_config (env : ConfigEnv) (g : GlobalState) : String × GlobalState :=
  match env.configDirResult with
  | .error e => (errorPayload e, g)
  | .ok dir =>
    match env.luaNewResult with
    | .error e => (errorPayload ("Failed to create Lua runtime: " ++ e), g)
    | .ok _ =>
      let runtime : LuaRuntime := ⟨dir, []⟩
      if env.configFileExists then
        match env.execResult with
        | .error e => (errorPayload ("Failed to load config file: " ++ e), g)
        | .ok _ =>
          let loaded : LuaRuntime := ⟨dir, [env.scriptSource]⟩
          (successPayload, if g.luaRuntime.isSome then g else ⟨some loaded⟩)
      else
        (successPayload, if g.luaRuntime.isSome then g else ⟨some runtime⟩)

/-- Embeds `pigeon_reload_config` (lib.rs lines 274-311): require the
stored runtime, probe `config.lua` under its config directory, and
re-execute it in the stored interpreter. -/
def pigeon_reload_config (env : ConfigEnv) (g : GlobalState) : String × GlobalState :=
  match g.luaRuntime with
  | none => (errorPayload "Lua runtime not initialized", g)
  | some rt =>
    if env.configFileExists then
      match env.execResult with
      | .error e => (errorPayload ("Failed to reload config: " ++ e), g)
      | .ok _ =>
        (successPayload, ⟨some ⟨rt.config_path, rt.scripts ++ [env.scriptSource]⟩⟩)
    else (errorPayload "config file not found", g)

/-! ## Helper lemmas -/

/-- A filter over a list is empty when the predicate fails everywhere. -/
theorem filter_eq_nil_of_all {α : Type} (p : α → Bool) (l : List α)
    (h : ∀ a ∈ l, p a = false) : l.filter p = [] := by
  induction l with
  | nil => rfl
  | cons x xs ih =>
    have hx := h x (List.mem_cons_self x xs)
    simp only [List.filter_cons, hx, if_neg Bool.false_ne_true]
    exact ih fun a ha => h a (List.mem_cons_of_mem _ ha)

/-- Applying the body block never changes the transport verb. -/
theorem applyBody_method (b : Option FfiBody) (r : BuiltRequest) :
    (applyBody b r).method = r.method := by
  cases b with
  | none => rfl
  | some body =>
    unfold applyBody
    by_cases hct : strTrim body.contentType = "" <;>
      by_cases hc : body.content = "" <;> simp [hct, hc]

/-! ## Claims -/

/-- C5: for every parsed request, exactly the headers with
`enabled == true` are attached verbatim and in their listed order (the
attached list is the filter-then-project of the header list), and a
disabled header is never attached and its presence does not affect which
other headers are attached. -/
theorem sendRequest_enabled_headers (hs : List FfiHeader) :
    buildHeaders hs = (hs.filter (fun h => h.enabled)).map (fun h => (h.key, h.value)) ∧
    (∀ d : FfiHeader, d.enabled = false →
      ∀ pre post : List FfiHeader,
        buildHeaders (pre ++ d :: post) = buildHeaders (pre ++ post)) := by
  constructor
  · induction hs with
    | nil => rfl
    | cons h t ih =>
      by_cases hh : h.enabled <;> simp [buildHeaders, List.filter_cons, hh, ih]
  · intro d hd pre post
    induction pre with
    | nil => simp [buildHeaders, hd]
    | cons x xs ih =>
      by_cases hx : x.enabled <;> simp [buildHeaders, hx, ih]

/-- C5 witness: a concrete disabled header is dropped while the enabled
one beside it is attached unchanged. -/
theorem sendRequest_enabled_headers_witness :
    buildHeaders [⟨"A", "1", false⟩, ⟨"B", "2", true⟩] =
      buildHeaders [⟨"B", "2", true⟩] ∧
    buildHeaders [⟨"B", "2", true⟩] = [("B", "2")] :=
  ⟨(sendRequest_enabled_headers []).2 ⟨"A", "1", false⟩ rfl [] [⟨"B", "2", true⟩], rfl⟩

/-- C6: with a `Some` body, the built request appends a `Content-Type`
header exactly when the trimmed `contentType` is non-empty and carries
the `content` as payload exactly when `content` is non-empty (an empty
`content` leaves the payload absent). -/
theorem sendRequest_body_rules (req : FfiRequest) (b : FfiBody) (hb : req.body = some b) :
    (buildRequest req).headers =
      buildHeaders req.headers ++
        (if strTrim b.contentType = "" then [] else [("Content-Type", b.contentType)]) ∧
    (buildRequest req).payload = (if b.content = "" then none else some b.content) := by
  unfold buildRequest applyBody
  rw [hb]
  by_cases hct : strTrim b.contentType = "" <;> by_cases hc : b.content = "" <;>
    simp [hct, hc]

/-- C6 witness: a concrete body with a non-empty content type and
content sets both the header and the payload. -/
theorem sendRequest_body_rules_witness :
    (buildRequest ⟨"GET", "u", [], some ⟨"application/json", "x"⟩⟩).headers =
      [("Content-Type", "application/json")] ∧
    (buildRequest ⟨"GET", "u", [], some ⟨"application/json", "x"⟩⟩).payload = some "x" := by
  have h := sendRequest_body_rules ⟨"GET", "u", [], some ⟨"application/json", "x"⟩⟩
    ⟨"application/json", "x"⟩ rfl
  exact ⟨h.1.trans (by decide), h.2.trans (by decide)⟩

/-- C1 counterexample: a concrete request whose dispatch fails after a
measured 7 ms yields the error-shaped response with `durationMs = 0` —
the measured duration is not carried, contradicting the claim. -/
theorem transportFailure_duration_counterexample :
    (pigeon_send_request (some (strBytes "\x7b\"method\":\"G\",\"url\":\"u\"\x7d"))
        (NetOutcome.failure "connection refused" 7)).durationMs = 0 ∧
    ¬ (pigeon_send_request (some (strBytes "\x7b\"method\":\"G\",\"url\":\"u\"\x7d"))
        (NetOutcome.failure "connection refused" 7)).durationMs = 7 := by
  constructor
  · rfl
  · decide

/-- C1 amended: on transport failure the dispatch produces the uniform
error-shaped response (`status = 0`, `statusText = "Error"`, body
`request failed: {e}`) whose `durationMs` is `0` — the elapsed time the
code measured for the failed attempt is discarded. -/
theorem transportFailure_uniform_error (e : String) (t : Nat) :
    dispatchResult (NetOutcome.failure e t) = json_error ("request failed: " ++ e) ∧
    (json_error ("request failed: " ++ e)).status = 0 ∧
    (json_error ("request failed: " ++ e)).statusText = "Error" ∧
    (json_error ("request failed: " ++ e)).durationMs = 0 :=
  ⟨rfl, rfl, rfl, rfl⟩

/-- C2 counterexample: a well-formed JSON request whose `method` field is
absent fails deserialization and returns the error payload — no dispatch
with GET takes place, contradicting the claim for the absent-method
case. -/
theorem missingMethod_counterexample :
    pigeon_send_request (some (strBytes "\x7b\"url\":\"http://example.test/\"\x7d"))
        (NetOutcome.success 200 "200 OK" [] "" 1) =
      json_error "invalid json: missing field method" ∧
    (json_error "invalid json: missing field method").status = 0 ∧
    (json_error "invalid json: missing field method").statusText = "Error" := by
  refine ⟨?_, rfl, rfl⟩
  decide

/-- C2 amended: a request whose `method` field is present but does not
parse as an HTTP verb is dispatched with GET, while a JSON object with no
`method` member at all fails deserialization with a missing-field
diagnostic (and therefore returns the error payload instead of
dispatching). -/
theorem methodFallback_and_missingMethod :
    (∀ r : FfiRequest, parseMethod r.method = none → (buildRequest r).method = "GET") ∧
    (∀ flds : List (String × Json), (∀ kv ∈ flds, kv.1 ≠ "method") →
      parseFfiRequestVal (Json.obj flds) = Except.error "missing field method") := by
  constructor
  · intro r hr
    unfold buildRequest
    rw [applyBody_method]
    simp [hr]
  · intro flds h
    have hocc : keyOccurrences flds "method" = [] :=
      filter_eq_nil_of_all _ _ (fun kv hkv => beq_eq_false_iff_ne.mpr (h kv hkv))
    simp [parseFfiRequestVal, reqStringField, hocc]

/-- C2 witness: `"NO METHOD"` contains a space, fails method parsing and
falls back to GET; a concrete object carrying only `url` fails with the
missing-field diagnostic. -/
theorem methodFallback_and_missingMethod_witness :
    (buildRequest ⟨"NO METHOD", "u", [], none⟩).method = "GET" ∧
    parseFfiRequestVal (Json.obj [("url", Json.str "u")]) =
      Except.error "missing field method" :=
  ⟨methodFallback_and_missingMethod.1 ⟨"NO METHOD", "u", [], none⟩ (by decide),
   methodFallback_and_missingMethod.2 [("url", Json.str "u")] (by decide)⟩

/-- C3: the config entry points splice error messages into their JSON
payload without escaping, so a script-execution error whose rendered
message contains a double quote (for instance because the script path
contains one) makes `pigeon_load_config` return a string that is not
syntactically valid JSON — the code violates the claim. -/
theorem loadConfig_unescaped_message_breaks_json :
    isValidJson ((pigeon_load_config
        ⟨Except.ok "/home/a\"b/.config/pigeon", Except.ok (), true, "config.lua",
          Except.error
            "Failed to execute Lua script: /home/a\"b/.config/pigeon/config.lua"⟩
        ⟨none⟩).1) = false := by
  decide

/-- C7: a null pointer, an invalid-UTF-8 input, and an input that fails
to deserialize as the request schema each return the uniform error
response (`status = 0`, `statusText = "Error"`, `headers = []`, the
diagnostic as body, `durationMs = 0`), independently of the transport
outcome — so no HTTP dispatch influences the result. -/
theorem sendRequest_bad_input_pipeline (bs : List Nat) (net : NetOutcome) :
    pigeon_send_request none net = json_error "req_json is null" ∧
    (∀ e, utf8Decode bs = Except.error e →
      pigeon_send_request (some bs) net = json_error ("invalid utf-8: " ++ e)) ∧
    (∀ s e, utf8Decode bs = Except.ok s → parseFfiRequest s = Except.error e →
      pigeon_send_request (some bs) net = json_error ("invalid json: " ++ e)) ∧
    (∀ m, json_error m =
      { status := 0, statusText := "Error", headers := [], body := m,
        durationMs := 0 }) := by
  refine ⟨rfl, ?_, ?_, fun m => rfl⟩
  · intro e he
    simp [pigeon_send_request, he]
  · intro s e hs hp
    simp [pigeon_send_request, hs, hp]

/-- C7 witness: the three bad-input classes at concrete inputs, with the
transport outcome fixed arbitrarily. -/
theorem sendRequest_bad_input_pipeline_witness :
    pigeon_send_request (some [0xFF]) (NetOutcome.failure "x" 0) =
      json_error "invalid utf-8: invalid utf-8 sequence of 1 bytes from index 0" ∧
    pigeon_send_request (some (strBytes "not json")) (NetOutcome.failure "x" 0) =
      json_error "invalid json: expected ident" ∧
    pigeon_send_request none (NetOutcome.failure "x" 0) =
      json_error "req_json is null" :=
  ⟨(sendRequest_bad_input_pipeline [0xFF] (NetOutcome.failure "x" 0)).2.1
      "invalid utf-8 sequence of 1 bytes from index 0" rfl,
   (sendRequest_bad_input_pipeline (strBytes "not json")
        (NetOutcome.failure "x" 0)).2.2.1
      "not json" "expected ident" rfl rfl,
   (sendRequest_bad_input_pipeline [] (NetOutcome.failure "x" 0)).1⟩

/-- C8: before any successful load has stored the runtime,
`pigeon_reload_config` returns exactly the fixed not-initialized payload;
with a stored runtime but no config file it returns the distinct
file-not-found payload, executes nothing, and the stored state is
unchanged in both cases. -/
theorem reloadConfig_guards (env : ConfigEnv) (g : GlobalState) :
    (g.luaRuntime = none →
      pigeon_reload_config env g =
        ("\x7b\"error\": \"Lua runtime not initialized\"\x7d", g)) ∧
    (∀ rt, g.luaRuntime = some rt → env.configFileExists = false →
      pigeon_reload_config env g = (errorPayload "config file not found", g)) ∧
    errorPayload "config file not found" ≠
      "\x7b\"error\": \"Lua runtime not initialized\"\x7d" := by
  refine ⟨?_, ?_, by decide⟩
  · intro h
    simp [pigeon_reload_config, h, errorPayload]
  · intro rt h hf
    simp [pigeon_reload_config, h, hf]

/-- C8 witness: both guard branches at concrete states. -/
theorem reloadConfig_guards_witness :
    pigeon_reload_config ⟨Except.ok "d", Except.ok (), true, "s", Except.ok ()⟩ ⟨none⟩ =
      ("\x7b\"error\": \"Lua runtime not initialized\"\x7d", ⟨none⟩) ∧
    pigeon_reload_config ⟨Except.ok "d", Except.ok (), false, "s", Except.ok ()⟩
        ⟨some ⟨"d", ["s"]⟩⟩ =
      (errorPayload "config file not found", ⟨some ⟨"d", ["s"]⟩⟩) :=
  ⟨(reloadConfig_guards ⟨Except.ok "d", Except.ok (), true, "s", Except.ok ()⟩ ⟨none⟩).1
      rfl,
   (reloadConfig_guards ⟨Except.ok "d", Except.ok (), false, "s", Except.ok ()⟩
        ⟨some ⟨"d", ["s"]⟩⟩).2.1 ⟨"d", ["s"]⟩ rfl rfl⟩

/-- C9: when the directory resolves, the interpreter constructs, and no
`config.lua` exists, `pigeon_load_config` from the uninitialized state
stores a runtime in which no script was executed and returns the success
payload `\x7b"success": true\x7d`. -/
theorem loadConfig_no_script_succeeds (env : ConfigEnv) (d : String)
    (hdir : env.configDirResult = Except.ok d)
    (hnew : env.luaNewResult = Except.ok ())
    (hfile : env.configFileExists = false) :
    pigeon_load_config env ⟨none⟩ =
      ("\x7b\"success\": true\x7d", ⟨some ⟨d, []⟩⟩) := by
  simp [pigeon_load_config, hdir, hnew, hfile, successPayload]

/-- C9 witness: the no-script load at a concrete environment. -/
theorem loadConfig_no_script_succeeds_witness :
    pigeon_load_config ⟨Except.ok "/cfg", Except.ok (), false, "s", Except.ok ()⟩
        ⟨none⟩ = ("\x7b\"success\": true\x7d", ⟨some ⟨"/cfg", []⟩⟩) :=
  loadConfig_no_script_succeeds
    ⟨Except.ok "/cfg", Except.ok (), false, "s", Except.ok ()⟩ "/cfg" rfl rfl rfl

/-- C10: once the global slot holds a runtime, a later successful
`pigeon_load_config` pass (directory resolved, fresh interpreter
constructed, script executed in it when present) still returns the
success payload while leaving the global state — and hence the originally
stored interpreter — completely unchanged: the fresh interpreter is
silently discarded by `OnceLock::set(..).ok()`. -/
theorem loadConfig_occupied_slot_kept (env : ConfigEnv) (g : GlobalState)
    (rt : LuaRuntime) (d : String) (hg : g.luaRuntime = some rt)
    (hdir : env.configDirResult = Except.ok d)
    (hnew : env.luaNewResult = Except.ok ())
    (hexec : env.configFileExists = true → env.execResult = Except.ok ()) :
    pigeon_load_config env g = (successPayload, g) := by
  have hs : g.luaRuntime.isSome = true := by rw [hg]; rfl
  cases hf : env.configFileExists with
  | true => simp [pigeon_load_config, hdir, hnew, hf, hexec hf, hs]
  | false => simp [pigeon_load_config, hdir, hnew, hf, hs]

/-- C10 witness: a second load over an occupied slot at concrete values
returns success and keeps the first runtime. -/
theorem loadConfig_occupied_slot_kept_witness :
    pigeon_load_config ⟨Except.ok "/cfg", Except.ok (), true, "s2", Except.ok ()⟩
        ⟨some ⟨"/cfg", ["s1"]⟩⟩ = (successPayload, ⟨some ⟨"/cfg", ["s1"]⟩⟩) :=
  loadConfig_occupied_slot_kept
    ⟨Except.ok "/cfg", Except.ok (), true, "s2", Except.ok ()⟩
    ⟨some ⟨"/cfg", ["s1"]⟩⟩ ⟨"/cfg", ["s1"]⟩ "/cfg" rfl rfl rfl (fun _ => rfl)

/-- C4: assuming every real HTTP status code is at least 100 (the
invariant of `http::StatusCode`), the returned response has `status = 0`
and `statusText = "Error"` exactly when no real HTTP response was
obtained; and when one was obtained the returned status is the server's
(nonzero) status code. -/
theorem sendRequest_error_shape_iff (input : Option (List Nat)) (net : NetOutcome)
    (hst : ∀ st stx hs b t, net = NetOutcome.success st stx hs b t → 100 ≤ st) :
    (((pigeon_send_request input net).status = 0 ∧
        (pigeon_send_request input net).statusText = "Error") ↔
      obtainedHttpResponse input net = false) ∧
    (∀ st stx hs b t, net = NetOutcome.success st stx hs b t →
      obtainedHttpResponse input net = true →
      (pigeon_send_request input net).status = st ∧ st ≠ 0) := by
  cases input with
  | none =>
    refine ⟨by simp [pigeon_send_request, obtainedHttpResponse, json_error], ?_⟩
    intro st stx hs b t _ hob
    simp [obtainedHttpResponse] at hob
  | some bs =>
    cases hdec : utf8Decode bs with
    | error e =>
      refine ⟨by simp [pigeon_send_request, obtainedHttpResponse, hdec, json_error], ?_⟩
      intro st stx hs b t _ hob
      simp [obtainedHttpResponse, hdec] at hob
    | ok s =>
      cases hp : parseFfiRequest s with
      | error e =>
        refine
          ⟨by simp [pigeon_send_request, obtainedHttpResponse, hdec, hp, json_error], ?_⟩
        intro st stx hs b t _ hob
        simp [obtainedHttpResponse, hdec, hp] at hob
      | ok req =>
        cases net with
        | failure e t =>
          refine ⟨by simp [pigeon_send_request, obtainedHttpResponse, hdec, hp,
            dispatchResult, json_error], ?_⟩
          intro st stx hs b t' hnet
          cases hnet
        | success st stx hs bdy t =>
          have h100 : 100 ≤ st := hst st stx hs bdy t rfl
          have hne : st ≠ 0 := by omega
          refine ⟨by simp [pigeon_send_request, obtainedHttpResponse, hdec, hp,
            dispatchResult, hne], ?_⟩
          intro st' stx' hs' b' t' hnet _
          cases hnet
          exact ⟨by simp [pigeon_send_request, hdec, hp, dispatchResult], hne⟩

/-- C4 witness: a concrete request that reaches the transport and gets a
200 response yields `status = 200 ≠ 0`. -/
theorem sendRequest_error_shape_iff_witness :
    (pigeon_send_request (some (strBytes "\x7b\"method\":\"GET\",\"url\":\"u\"\x7d"))
        (NetOutcome.success 200 "200 OK" [] "ok" 3)).status = 200 ∧ (200 : Nat) ≠ 0 :=
  (sendRequest_error_shape_iff
      (some (strBytes "\x7b\"method\":\"GET\",\"url\":\"u\"\x7d"))
      (NetOutcome.success 200 "200 OK" [] "ok" 3)
      (fun st stx hs b t h => by cases h; decide)).2
    200 "200 OK" [] "ok" 3 rfl (by decide)

end Pigeon
